import Mathlib

/-!
Verification of the hourly state-transition and optimization engine of the
"Friday Night at the ER" optimizer (`er_model.py`, with the input-validation
logic of `app.py`).

The embedding is shallow: Python dictionaries keyed by department become
either total functions `Dept → _` (for `GameState.depts` and the `Totals`
per-department counters, which always carry all keys) or association lists
with a default-zero lookup `dictGet` (for the `HourInput` dictionaries, which
are read through `dict.get(key, 0)` and may omit keys).  Python `int` is
`Int`.  The external MILP solver (PuLP/CBC) is abstracted as a function
`GameState → SolveResult`; the solver contract is that an `optimal` outcome
carries integer variable values satisfying the constraints of the model that
`optimize_hour` builds (`Feasible` below).  The in-place mutation of the
Python `GameState` is made explicit: `optimize_hour` returns the state object
as the caller's alias observes it after the call, together with a success
flag (`false` models the `RuntimeError` raised on a non-optimal status).
-/

set_option maxRecDepth 10000

namespace ER

/-- The four departments, in the fixed enumeration order of `DEPARTMENTS`. -/
inductive Dept
  | ED
  | SD
  | CC
  | SU
deriving DecidableEq, Repr, Fintype

/-- A routing target: another department or discharge ("OUT"). -/
inductive Target
  | dept (d : Dept)
  | out
deriving DecidableEq, Repr

/-- The fixed iteration order of the `DEPARTMENTS` tuple in `er_model.py`. -/
def DEPARTMENTS : List Dept := [Dept.ED, Dept.SD, Dept.CC, Dept.SU]

def TOTAL_ROOMS : Dept → Int
  | Dept.ED => 25
  | Dept.SD => 30
  | Dept.CC => 18
  | Dept.SU => 9

def STATE0_PATIENTS : Dept → Int
  | Dept.ED => 16
  | Dept.SD => 22
  | Dept.CC => 12
  | Dept.SU => 4

def STATE0_STAFF : Dept → Int
  | Dept.ED => 18
  | Dept.SD => 24
  | Dept.CC => 13
  | Dept.SU => 6

/-! Unit-cost tables (`FINANCIAL` and `QUALITY` in the source).  In the source
these are per-department string-keyed dictionaries; the `extra_staff`,
`arrivals_waiting` and `requests_waiting` values coincide across departments,
so they are single constants here. -/

def FINANCIAL_ED_diversion : Int := 5000
def FINANCIAL_ED_waiting : Int := 150
def FINANCIAL_extra_staff : Int := 40
def FINANCIAL_arrivals_waiting : Int := 3750
def QUALITY_ED_diversion : Int := 200
def QUALITY_ED_waiting : Int := 20
def QUALITY_extra_staff : Int := 5
def QUALITY_arrivals_waiting : Int := 20
def QUALITY_requests_waiting : Int := 20

/-- Per-department mutable state (`DepartmentState` in the source). -/
@[ext]
structure DepartmentState where
  patients : Int
  staff : Int
  ext_waiting : Int := 0
  ed_walkin_waiting : Int := 0
  ed_ambulance_waiting : Int := 0
  req_waiting_mature : Int := 0
  req_waiting_new : Int := 0
deriving DecidableEq, Repr

/-- Cumulative performance counters (`Totals` in the source).  The three
per-department dictionaries carry keys SD/CC/SU in the source; here they are
total functions whose ED component is initialized to 0 and never touched. -/
@[ext]
structure Totals where
  ed_diversions : Int := 0
  ed_waiting : Int := 0
  ed_extra_staff : Int := 0
  dep_arrivals_waiting : Dept → Int := fun _ => 0
  dep_requests_waiting : Dept → Int := fun _ => 0
  dep_extra_staff : Dept → Int := fun _ => 0
  throughput_admitted : Int := 0
  discharged_out : Int := 0

/-- `Totals.financial_cost` from the source. -/
def Totals.financial_cost (t : Totals) : Int :=
  t.ed_diversions * FINANCIAL_ED_diversion
    + t.ed_waiting * FINANCIAL_ED_waiting
    + t.ed_extra_staff * FINANCIAL_extra_staff
    + ([Dept.SD, Dept.CC, Dept.SU].foldl
        (fun acc d =>
          acc + t.dep_arrivals_waiting d * FINANCIAL_arrivals_waiting
            + t.dep_extra_staff d * FINANCIAL_extra_staff)
        0)

/-- `Totals.quality_penalty` from the source. -/
def Totals.quality_penalty (t : Totals) : Int :=
  t.ed_diversions * QUALITY_ED_diversion
    + t.ed_waiting * QUALITY_ED_waiting
    + t.ed_extra_staff * QUALITY_extra_staff
    + ([Dept.SD, Dept.CC, Dept.SU].foldl
        (fun acc d =>
          acc + t.dep_arrivals_waiting d * QUALITY_arrivals_waiting
            + t.dep_requests_waiting d * QUALITY_requests_waiting
            + t.dep_extra_staff d * QUALITY_extra_staff)
        0)

/-- `GameState` from the source; the default value is the hardcoded "State 0". -/
@[ext]
structure GameState where
  hour : Int := 1
  depts : Dept → DepartmentState := fun d =>
    { patients := STATE0_PATIENTS d, staff := STATE0_STAFF d }
  totals : Totals := {}

/-- Default-zero lookup in an association list, mirroring Python's
`dict.get(key, 0)`. -/
def dictGet {α : Type} [DecidableEq α] (m : List (α × Int)) (k : α) : Int :=
  match m with
  | [] => 0
  | (k', v) :: rest => if k' = k then v else dictGet rest k

/-- Membership of a key in an association list (a key a Python dict holds). -/
def hasKey {α : Type} [DecidableEq α] (m : List (α × Int)) (k : α) : Prop :=
  ∃ p ∈ m, p.1 = k

instance {α : Type} [DecidableEq α] (m : List (α × Int)) (k : α) :
    Decidable (hasKey m k) := by
  unfold hasKey
  exact List.decidableBEx _ m

/-- One hour's card data (`HourInput` in the source). -/
@[ext]
structure HourInput where
  external_arrivals : List (Dept × Int)
  ed_walkin_arrivals : Int
  ed_ambulance_arrivals : Int
  staff_delta : List (Dept × Int)
  ready_to_exit : List (Dept × Int)
  destinations : List ((Dept × Target) × Int)
deriving DecidableEq, Repr

/-- `_clamp_non_negative` from the source. -/
def clamp_non_negative (value : Int) : Int := max 0 value

/-- Pointwise update of the department map, modelling mutation of one entry of
the `state.depts` dictionary. -/
def updDept (f : Dept → DepartmentState) (d : Dept)
    (g : DepartmentState → DepartmentState) : Dept → DepartmentState :=
  fun x => if x = d then g (f x) else f x

/-- Body of the inner routing loop of `_apply_departures_and_requests`: for
each target department `t` (skipped when `t = d` or nothing remains), clip the
requested count to the unallocated departures, add it to `t`'s
`req_waiting_new`, and decrement the remainder. -/
def route_step (hour_input : HourInput) (d : Dept) (p : GameState × Int)
    (t : Dept) : GameState × Int :=
  if t = d ∨ p.2 ≤ 0 then p
  else
    let req :=
      min (clamp_non_negative (dictGet hour_input.destinations (d, Target.dept t))) p.2
    ({ p.1 with
        depts := updDept p.1.depts t
          (fun s => { s with req_waiting_new := s.req_waiting_new + req }) },
     p.2 - req)

/-- The inner routing loop of `_apply_departures_and_requests` over a target
list. -/
def route_fold (hour_input : HourInput) (d : Dept) (ts : List Dept)
    (p : GameState × Int) : GameState × Int :=
  ts.foldl (route_step hour_input d) p

/-- Body of the outer loop of `_apply_departures_and_requests` for one
department `d`: remove `min(clamped ready-to-exit, patients)` patients,
consume the discharge entry first (clipped), route the rest to the other
departments in order, and spill any unallocated remainder as discharged. -/
def depart_step (hour_input : HourInput) (acc : GameState × (Dept → Int))
    (d : Dept) : GameState × (Dept → Int) :=
  let requested := clamp_non_negative (dictGet hour_input.ready_to_exit d)
  let actual_departures := min requested (acc.1.depts d).patients
  let st1 : GameState :=
    { acc.1 with
        depts := updDept acc.1.depts d
          (fun s => { s with patients := s.patients - actual_departures }) }
  let out_count :=
    min (clamp_non_negative (dictGet hour_input.destinations (d, Target.out)))
      actual_departures
  let remaining1 := actual_departures - out_count
  let discharged1 : Dept → Int := fun x => if x = d then out_count else acc.2 x
  let step := route_fold hour_input d DEPARTMENTS (st1, remaining1)
  let discharged2 : Dept → Int :=
    if 0 < step.2 then
      fun x => if x = d then discharged1 x + step.2 else discharged1 x
    else discharged1
  (step.1, discharged2)

/-- `_apply_departures_and_requests` from the source.  Returns the mutated
state and the `discharged_out` per-department map. -/
def apply_departures_and_requests (state : GameState) (hour_input : HourInput) :
    GameState × (Dept → Int) :=
  DEPARTMENTS.foldl (depart_step hour_input) (state, fun _ => 0)

/-- `_roll_request_age` from the source: fresh requests of every department
become mature, and the fresh counter resets. -/
def roll_request_age (state : GameState) : GameState :=
  { state with
      depts := fun d =>
        { state.depts d with
            req_waiting_mature :=
              (state.depts d).req_waiting_mature + (state.depts d).req_waiting_new,
            req_waiting_new := 0 } }

/-- Step 3 of `optimize_hour`: external arrivals (clamped) join the queues and
the staffing shock is applied with a clamp at zero. -/
def apply_arrivals_and_staff (state : GameState) (hour_input : HourInput) :
    GameState :=
  { state with
      depts := fun d =>
        let s := state.depts d
        let s :=
          if d = Dept.ED then
            { s with
                ed_walkin_waiting :=
                  s.ed_walkin_waiting + clamp_non_negative hour_input.ed_walkin_arrivals,
                ed_ambulance_waiting :=
                  s.ed_ambulance_waiting
                    + clamp_non_negative hour_input.ed_ambulance_arrivals }
          else
            { s with
                ext_waiting :=
                  s.ext_waiting
                    + clamp_non_negative (dictGet hour_input.external_arrivals d) }
        { s with
            staff := clamp_non_negative (s.staff + dictGet hour_input.staff_delta d) } }

/-- Steps 1-3 of `optimize_hour` (the pre-solve state-transition mutations):
request aging, then departures and routing, then arrivals and staffing shock.
Returns the mutated state and the per-department discharged count. -/
def transition_pre (state : GameState) (hour_input : HourInput) :
    GameState × (Dept → Int) :=
  let st1 := roll_request_age state
  let p := apply_departures_and_requests st1 hour_input
  (apply_arrivals_and_staff p.1 hour_input, p.2)

/-- One (rounded, integer-valued) assignment to the decision variables of the
hour's integer program. -/
@[ext]
structure Solution where
  admit_ext : Dept → Int
  admit_ed_walkin : Int
  admit_ed_ambulance : Int
  admit_req : Dept → Int
  extra_staff : Dept → Int
  divert_ed : Int

/-- The arrivals-admission term of department `d` in the capacity and staffing
constraints (`ext_admit_term` in the source). -/
def extAdmitTerm (sol : Solution) (d : Dept) : Int :=
  if d = Dept.ED then sol.admit_ed_walkin + sol.admit_ed_ambulance
  else sol.admit_ext d

/-- The constraints of the integer program `optimize_hour` builds over the
post-transition state: variable lower bounds (`lowBound=0`), queue bounds,
the diversion split, and the room-capacity and staffing constraints. -/
def Feasible (st : GameState) (sol : Solution) : Prop :=
  (∀ d, 0 ≤ sol.admit_ext d)
    ∧ 0 ≤ sol.admit_ed_walkin
    ∧ 0 ≤ sol.admit_ed_ambulance
    ∧ (∀ d, 0 ≤ sol.admit_req d)
    ∧ (∀ d, 0 ≤ sol.extra_staff d)
    ∧ 0 ≤ sol.divert_ed
    ∧ sol.admit_ext Dept.ED = 0
    ∧ (∀ d, d ≠ Dept.ED → sol.admit_ext d ≤ (st.depts d).ext_waiting)
    ∧ (∀ d, sol.admit_req d ≤ (st.depts d).req_waiting_mature)
    ∧ sol.admit_ed_walkin ≤ (st.depts Dept.ED).ed_walkin_waiting
    ∧ sol.admit_ed_ambulance ≤ (st.depts Dept.ED).ed_ambulance_waiting
    ∧ sol.divert_ed ≤ (st.depts Dept.ED).ed_ambulance_waiting
    ∧ sol.admit_ed_ambulance + sol.divert_ed
        ≤ (st.depts Dept.ED).ed_ambulance_waiting
    ∧ (∀ d, (st.depts d).patients + extAdmitTerm sol d + sol.admit_req d
        ≤ TOTAL_ROOMS d)
    ∧ (∀ d, (st.depts d).patients + extAdmitTerm sol d + sol.admit_req d
        ≤ (st.depts d).staff + sol.extra_staff d)

instance (st : GameState) (sol : Solution) : Decidable (Feasible st sol) := by
  unfold Feasible
  infer_instance

/-- The objective `financial + quality_weight * quality - flow_reward *
throughput` of the hour's program, over the post-transition state.  The two
weights are Python floats in the source; every claim instantiates them at the
defaults 1.0 and 300.0, at which integer arithmetic is exact. -/
def objective (st : GameState) (quality_weight flow_reward : Int)
    (sol : Solution) : Int :=
  let ext_wait_end := fun d => (st.depts d).ext_waiting - sol.admit_ext d
  let ed_walkin_wait_end :=
    (st.depts Dept.ED).ed_walkin_waiting - sol.admit_ed_walkin
  let ed_ambulance_wait_end :=
    (st.depts Dept.ED).ed_ambulance_waiting - sol.admit_ed_ambulance
      - sol.divert_ed
  let req_wait_end := fun d =>
    (st.depts d).req_waiting_mature - sol.admit_req d
      + (st.depts d).req_waiting_new
  let financial :=
    FINANCIAL_ED_diversion * sol.divert_ed
      + FINANCIAL_ED_waiting
          * (ed_walkin_wait_end + ed_ambulance_wait_end + req_wait_end Dept.ED)
      + FINANCIAL_extra_staff * sol.extra_staff Dept.ED
      + ([Dept.SD, Dept.CC, Dept.SU].foldl
          (fun acc d =>
            acc + FINANCIAL_arrivals_waiting * ext_wait_end d
              + FINANCIAL_extra_staff * sol.extra_staff d)
          0)
  let quality :=
    QUALITY_ED_diversion * sol.divert_ed
      + QUALITY_ED_waiting
          * (ed_walkin_wait_end + ed_ambulance_wait_end + req_wait_end Dept.ED)
      + QUALITY_extra_staff * sol.extra_staff Dept.ED
      + ([Dept.SD, Dept.CC, Dept.SU].foldl
          (fun acc d =>
            acc + QUALITY_arrivals_waiting * ext_wait_end d
              + QUALITY_requests_waiting * req_wait_end d
              + QUALITY_extra_staff * sol.extra_staff d)
          0)
  let throughput :=
    sol.admit_ed_walkin + sol.admit_ed_ambulance
      + ([Dept.SD, Dept.CC, Dept.SU].foldl (fun acc d => acc + sol.admit_ext d) 0)
      + (DEPARTMENTS.foldl (fun acc d => acc + sol.admit_req d) 0)
  financial + quality_weight * quality - flow_reward * throughput

/-- An optimal solution of the hour's integer program: feasible and of minimal
objective among feasible solutions. -/
def IsOptimal (st : GameState) (quality_weight flow_reward : Int)
    (sol : Solution) : Prop :=
  Feasible st sol
    ∧ ∀ s, Feasible st s →
        objective st quality_weight flow_reward sol
          ≤ objective st quality_weight flow_reward s

/-- Outcome of the external solver: `optimal` with (rounded) variable values,
or any non-optimal status. -/
inductive SolveResult
  | optimal (sol : Solution)
  | failed (status : String)

/-- Steps 5-7 of `optimize_hour`: apply the solved values to the state
(admissions, diversion with its clamp at zero, extra staff), accumulate the
performance totals from the post-application queues, and advance the hour. -/
def commit (st : GameState) (sol : Solution) (discharged_out : Dept → Int) :
    GameState :=
  let depts :=
    DEPARTMENTS.foldl
      (fun f d =>
        updDept f d
          (fun s =>
            if d = Dept.ED then
              { s with
                  patients := s.patients + sol.admit_ed_walkin
                    + sol.admit_ed_ambulance + sol.admit_req d,
                  ed_walkin_waiting := s.ed_walkin_waiting - sol.admit_ed_walkin,
                  ed_ambulance_waiting :=
                    s.ed_ambulance_waiting - sol.admit_ed_ambulance,
                  req_waiting_mature := s.req_waiting_mature - sol.admit_req d,
                  staff := s.staff + sol.extra_staff d }
            else
              { s with
                  patients := s.patients + sol.admit_ext d + sol.admit_req d,
                  ext_waiting := s.ext_waiting - sol.admit_ext d,
                  req_waiting_mature := s.req_waiting_mature - sol.admit_req d,
                  staff := s.staff + sol.extra_staff d }))
      st.depts
  let depts :=
    updDept depts Dept.ED
      (fun s =>
        { s with
            ed_ambulance_waiting := max 0 (s.ed_ambulance_waiting - sol.divert_ed) })
  let admitted_total :=
    DEPARTMENTS.foldl
      (fun acc d => acc + extAdmitTerm sol d + sol.admit_req d) 0
  let discharged_out_total :=
    DEPARTMENTS.foldl (fun acc d => acc + discharged_out d) 0
  let totals :=
    { st.totals with
        ed_diversions := st.totals.ed_diversions + sol.divert_ed,
        ed_waiting := st.totals.ed_waiting
          + ((depts Dept.ED).ed_walkin_waiting
              + (depts Dept.ED).ed_ambulance_waiting
              + (depts Dept.ED).req_waiting_mature),
        ed_extra_staff := st.totals.ed_extra_staff + sol.extra_staff Dept.ED,
        dep_arrivals_waiting := fun d =>
          if d = Dept.ED then st.totals.dep_arrivals_waiting d
          else st.totals.dep_arrivals_waiting d + (depts d).ext_waiting,
        dep_requests_waiting := fun d =>
          if d = Dept.ED then st.totals.dep_requests_waiting d
          else st.totals.dep_requests_waiting d
            + ((depts d).req_waiting_mature + (depts d).req_waiting_new),
        dep_extra_staff := fun d =>
          if d = Dept.ED then st.totals.dep_extra_staff d
          else st.totals.dep_extra_staff d + sol.extra_staff d,
        throughput_admitted := st.totals.throughput_admitted + admitted_total,
        discharged_out := st.totals.discharged_out + discharged_out_total }
  { hour := st.hour + 1, depts := depts, totals := totals }

/-- `optimize_hour` from the source.  The state transition (steps 1-3)
mutates the state in place; the solver then runs on the mutated state.  The
first component of the result is the state as the caller's alias observes it
after the call; the second is `true` on an optimal solve and `false` for the
`RuntimeError` raised on a non-optimal status (in which case the pre-solve
mutations remain visible). -/
def optimize_hour (state : GameState) (hour_input : HourInput)
    (solve : GameState → SolveResult) : GameState × Bool :=
  let pre := transition_pre state hour_input
  match solve pre.1 with
  | SolveResult.failed _ => (pre.1, false)
  | SolveResult.optimal sol => (commit pre.1 sol pre.2, true)

/-! Characterization of the departure/routing loop.  `alloc_amount` and
`alloc_rem` compute, in closed recursive form, the per-target routed counts
and the unallocated remainder of the inner loop of
`_apply_departures_and_requests`. -/

/-- The clipped count routed from `d` to target department `t` when `r`
departures are still unallocated. -/
def dest_give (hour_input : HourInput) (d t : Dept) (r : Int) : Int :=
  min (clamp_non_negative (dictGet hour_input.destinations (d, Target.dept t))) r

/-- Amount the inner routing loop adds to each department's
`req_waiting_new`. -/
def alloc_amount (hour_input : HourInput) (d : Dept) :
    List Dept → Int → Dept → Int
  | [], _, _ => 0
  | t :: ts, r, x =>
    if t = d then alloc_amount hour_input d ts r x
    else
      (if x = t then dest_give hour_input d t r else 0)
        + alloc_amount hour_input d ts (r - dest_give hour_input d t r) x

/-- Remainder left unallocated by the inner routing loop. -/
def alloc_rem (hour_input : HourInput) (d : Dept) : List Dept → Int → Int
  | [], r => r
  | t :: ts, r =>
    if t = d then alloc_rem hour_input d ts r
    else alloc_rem hour_input d ts (r - dest_give hour_input d t r)

/-- Actual departures of department `d` for this hour:
`min(clamped ready-to-exit, patients)`. -/
def spec_actual (state : GameState) (hour_input : HourInput) (d : Dept) : Int :=
  min (clamp_non_negative (dictGet hour_input.ready_to_exit d))
    (state.depts d).patients

/-- The discharge ("OUT") entry of `d`'s destination map, clipped to the
actual departures, which are consumed discharge-first. -/
def out_give (state : GameState) (hour_input : HourInput) (d : Dept) : Int :=
  min (clamp_non_negative (dictGet hour_input.destinations (d, Target.out)))
    (spec_actual state hour_input d)

/-- Departures of `d` still unallocated after the discharge entry. -/
def rem1 (state : GameState) (hour_input : HourInput) (d : Dept) : Int :=
  spec_actual state hour_input d - out_give state hour_input d

/-! Claim-side description of the departure step, written from the spec's
words: the destination map of department `d` is consumed in a fixed
enumeration order — discharge first, then each other department — each
entry's count clipped to the departures still unallocated; non-discharge
counts go to the target's `req_waiting_new`; any unallocated remainder counts
as discharged. -/

/-- The fixed consumption order of `d`'s destination map: discharge first,
then each other department in `DEPARTMENTS` order. -/
def targetsOrder (d : Dept) : List Target :=
  Target.out :: (DEPARTMENTS.filter (fun t => t ≠ d)).map Target.dept

/-- Consume a destination map over an ordered target list, clipping each
entry to the departures still unallocated.  Returns the per-target allocation
and the unallocated remainder. -/
def allocFold (hour_input : HourInput) (d : Dept) (ts : List Target) (r : Int) :
    (Target → Int) × Int :=
  ts.foldl
    (fun p t =>
      let give := min (clamp_non_negative (dictGet hour_input.destinations (d, t))) p.2
      (fun x => if x = t then p.1 x + give else p.1 x, p.2 - give))
    (fun _ => 0, r)

/-- The allocation of `d`'s actual departures over its destination map. -/
def spec_alloc (state : GameState) (hour_input : HourInput) (d : Dept) :
    (Target → Int) × Int :=
  allocFold hour_input d (targetsOrder d) (spec_actual state hour_input d)

/-- Departures of `d` counted as discharged: the clipped discharge entry plus
the unallocated remainder. -/
def spec_discharged (state : GameState) (hour_input : HourInput) (d : Dept) :
    Int :=
  (spec_alloc state hour_input d).1 Target.out + (spec_alloc state hour_input d).2

/-- Count routed from `d` into department `t`'s `req_waiting_new`. -/
def spec_routed (state : GameState) (hour_input : HourInput) (d t : Dept) :
    Int :=
  (spec_alloc state hour_input d).1 (Target.dept t)

/-- The departure step as the spec states it: every department loses its
actual departures from `patients`, gains the routed counts in
`req_waiting_new`, and the discharged map holds the discharge-attributed
counts. -/
def spec_departures (state : GameState) (hour_input : HourInput) :
    GameState × (Dept → Int) :=
  ({ state with
      depts := fun t =>
        { state.depts t with
            patients := (state.depts t).patients - spec_actual state hour_input t,
            req_waiting_new := (state.depts t).req_waiting_new
              + DEPARTMENTS.foldl
                  (fun acc d => acc + spec_routed state hour_input d t) 0 } },
   fun d => spec_discharged state hour_input d)

/-- Sum of the counts routed into department `t` this hour. -/
def sum_routed (state : GameState) (hour_input : HourInput) (t : Dept) : Int :=
  DEPARTMENTS.foldl (fun acc d => acc + spec_routed state hour_input d t) 0

/-- Sum of the counts routed out of department `d` into the other
departments' `req_waiting_new`. -/
def sum_routed_from (state : GameState) (hour_input : HourInput) (d : Dept) :
    Int :=
  DEPARTMENTS.foldl (fun acc t => acc + spec_routed state hour_input d t) 0

/-- Non-negativity of every patient and queue count of a state (the spec's
standing data-model invariant). -/
def WellFormed (st : GameState) : Prop :=
  ∀ d, 0 ≤ (st.depts d).patients
    ∧ 0 ≤ (st.depts d).staff
    ∧ 0 ≤ (st.depts d).ext_waiting
    ∧ 0 ≤ (st.depts d).ed_walkin_waiting
    ∧ 0 ≤ (st.depts d).ed_ambulance_waiting
    ∧ 0 ≤ (st.depts d).req_waiting_mature
    ∧ 0 ≤ (st.depts d).req_waiting_new

instance (st : GameState) : Decidable (WellFormed st) := by
  unfold WellFormed
  infer_instance

/-! Concrete fixtures used by the counterexamples and witnesses. -/

/-- The hardcoded "State 0" the program starts from. -/
def state0 : GameState := {}

/-- An hour with no arrivals, no departures and no staffing change. -/
def idle_input : HourInput :=
  { external_arrivals := [], ed_walkin_arrivals := 0, ed_ambulance_arrivals := 0,
    staff_delta := [], ready_to_exit := [], destinations := [] }

/-- The all-zero assignment to the decision variables. -/
def zero_solution : Solution :=
  { admit_ext := fun _ => 0, admit_ed_walkin := 0, admit_ed_ambulance := 0,
    admit_req := fun _ => 0, extra_staff := fun _ => 0, divert_ed := 0 }

/-- A solver stub returning the all-zero optimal assignment. -/
def solver_zero : GameState → SolveResult :=
  fun _ => SolveResult.optimal zero_solution

/-- A solver stub returning a non-optimal status. -/
def solver_fail : GameState → SolveResult :=
  fun _ => SolveResult.failed "Infeasible"

/-- An hour with one emergency walk-in arrival and nothing else. -/
def hour_input_C1 : HourInput :=
  { external_arrivals := [], ed_walkin_arrivals := 1, ed_ambulance_arrivals := 0,
    staff_delta := [], ready_to_exit := [], destinations := [] }

/-! Scenario C (claim C5).  The post-transition state: Step-Down has 10
external arrivals waiting, staff slack of 2 (22 staff, 20 patients) and
room slack of 10 (capacity 30), all other queues empty. -/

def st_C5 : GameState :=
  { hour := 1,
    depts := fun d =>
      match d with
      | Dept.SD => { patients := 20, staff := 22, ext_waiting := 10 }
      | _ => { patients := 0, staff := 0 },
    totals := {} }

/-- The solution that admits all 10 Step-Down arrivals by calling 8 extra
staff. -/
def sol_C5_star : Solution :=
  { admit_ext := fun d => if d = Dept.SD then 10 else 0,
    admit_ed_walkin := 0,
    admit_ed_ambulance := 0,
    admit_req := fun _ => 0,
    extra_staff := fun d => if d = Dept.SD then 8 else 0,
    divert_ed := 0 }

/-! Hourly-input collection (`_collect_hour_input` in `app.py`): the raw
per-department numbers the operator enters, and the validation that the
destination split of each department with a positive ready-to-exit count sums
to that count. -/

/-- The raw numbers entered in the UI form for one hour. -/
structure RawForm where
  ext_arrivals : Dept → Int
  ed_walkin : Int
  ed_ambulance : Int
  staff_delta : Dept → Int
  ready : Dept → Int
  split : Dept → Target → Int

/-- Sum of the destination-split entries of department `d` (over the OUT
target and the other departments, the targets the form shows). -/
def split_sum (f : RawForm) (d : Dept) : Int :=
  (targetsOrder d).foldl (fun acc t => acc + f.split d t) 0

def split_error_msg : String :=
  "destination split does not sum to ready-to-exit"

/-- The validation-error accumulation of `_collect_hour_input`: one error per
department whose positive ready-to-exit count differs from its split sum. -/
def collect_errors (f : RawForm) : List String :=
  DEPARTMENTS.foldl
    (fun es d =>
      if 0 < f.ready d then
        if split_sum f d ≠ f.ready d then es ++ [split_error_msg] else es
      else es)
    []

/-- `_collect_hour_input` from `app.py`: builds the `HourInput` from the raw
form, or returns the validation errors and no input. -/
def collect_hour_input (f : RawForm) : Option HourInput × List String :=
  let errors := collect_errors f
  if errors = [] then
    (some
      { external_arrivals :=
          DEPARTMENTS.map
            (fun d => (d, if d = Dept.ED then 0 else f.ext_arrivals d)),
        ed_walkin_arrivals := f.ed_walkin,
        ed_ambulance_arrivals := f.ed_ambulance,
        staff_delta := DEPARTMENTS.map (fun d => (d, f.staff_delta d)),
        ready_to_exit := DEPARTMENTS.map (fun d => (d, f.ready d)),
        destinations :=
          (DEPARTMENTS.filter (fun d => 0 < f.ready d)).foldl
            (fun acc d =>
              acc ++ (targetsOrder d).map (fun t => ((d, t), f.split d t)))
            [] },
     [])
  else (none, errors)

/-- Per-department error contribution of the validation loop. -/
def err_contrib (f : RawForm) (d : Dept) : List String :=
  if 0 < f.ready d then
    if split_sum f d ≠ f.ready d then [split_error_msg] else []
  else []

/-- An hour input whose Step-Down destination split (3) does not equal its
declared ready-to-exit count (5). -/
def hour_input_C6 : HourInput :=
  { external_arrivals := [], ed_walkin_arrivals := 0, ed_ambulance_arrivals := 0,
    staff_delta := [], ready_to_exit := [(Dept.SD, 5)],
    destinations := [((Dept.SD, Target.out), 3)] }

/-- A raw form with the Step-Down mismatch of `hour_input_C6`. -/
def raw_C6 : RawForm :=
  { ext_arrivals := fun _ => 0, ed_walkin := 0, ed_ambulance := 0,
    staff_delta := fun _ => 0,
    ready := fun d => if d = Dept.SD then 5 else 0,
    split := fun d t => if d = Dept.SD ∧ t = Target.out then 3 else 0 }

lemma alloc_rem_nonneg (hour_input : HourInput) (d : Dept) :
    ∀ (ts : List Dept) (r : Int), 0 ≤ r → 0 ≤ alloc_rem hour_input d ts r := by
  intro ts
  induction ts with
  | nil => intro r hr; simpa [alloc_rem] using hr
  | cons t ts ih =>
    intro r hr
    by_cases htd : t = d
    · simpa [alloc_rem, htd] using ih r hr
    · have h1 : 0 ≤ r - dest_give hour_input d t r := by
        unfold dest_give clamp_non_negative
        omega
      simpa [alloc_rem, htd] using ih _ h1

lemma route_fold_char (hour_input : HourInput) (d : Dept) :
    ∀ (ts : List Dept) (st : GameState) (r : Int), 0 ≤ r →
      route_fold hour_input d ts (st, r) =
        ({ st with
            depts := fun x =>
              { st.depts x with
                  req_waiting_new :=
                    (st.depts x).req_waiting_new
                      + alloc_amount hour_input d ts r x } },
         alloc_rem hour_input d ts r) := by
  intro ts
  induction ts with
  | nil =>
    intro st r _
    simp [route_fold, alloc_amount, alloc_rem]
  | cons t ts ih =>
    intro st r hr
    by_cases htd : t = d
    · have hskip : route_fold hour_input d (t :: ts) (st, r)
          = route_fold hour_input d ts (st, r) := by
        simp [route_fold, route_step, htd]
      rw [hskip, ih st r hr]
      simp [alloc_amount, alloc_rem, htd]
    · by_cases hr0 : r ≤ 0
      · have hreq : r = 0 := le_antisymm hr0 hr
        subst hreq
        have hg : dest_give hour_input d t 0 = 0 := by
          unfold dest_give clamp_non_negative
          omega
        have hskip : route_fold hour_input d (t :: ts) (st, (0 : Int))
            = route_fold hour_input d ts (st, (0 : Int)) := by
          simp [route_fold, route_step]
        rw [hskip, ih st 0 le_rfl]
        simp [alloc_amount, alloc_rem, htd, hg]
      · have hg2 : dest_give hour_input d t r ≤ r := by
          unfold dest_give clamp_non_negative
          omega
        have hstep : route_fold hour_input d (t :: ts) (st, r)
            = route_fold hour_input d ts
                ({ st with
                    depts := updDept st.depts t
                      (fun s =>
                        { s with
                            req_waiting_new :=
                              s.req_waiting_new + dest_give hour_input d t r }) },
                 r - dest_give hour_input d t r) := by
          simp [route_fold, route_step, htd, hr0, dest_give]
        rw [hstep, ih _ _ (by omega)]
        simp only [alloc_amount, alloc_rem, if_neg htd]
        refine Prod.ext ?_ rfl
        refine GameState.ext rfl ?_ rfl
        funext x
        by_cases hxt : x = t
        · subst hxt
          simp [updDept]
          omega
        · simp [updDept, hxt]

lemma rem1_nonneg (state : GameState) (hour_input : HourInput) (d : Dept) :
    0 ≤ rem1 state hour_input d := by
  unfold rem1 out_give spec_actual clamp_non_negative
  omega

lemma depart_step_char (hour_input : HourInput) (d : Dept) (st : GameState)
    (disch : Dept → Int) :
    depart_step hour_input (st, disch) d =
      ({ st with
          depts := fun x =>
            { st.depts x with
                patients := (st.depts x).patients
                  - (if x = d then spec_actual st hour_input d else 0),
                req_waiting_new := (st.depts x).req_waiting_new
                  + alloc_amount hour_input d DEPARTMENTS
                      (rem1 st hour_input d) x } },
       fun x =>
         if x = d then
           out_give st hour_input d
             + alloc_rem hour_input d DEPARTMENTS (rem1 st hour_input d)
         else disch x) := by
  have hrem : 0 ≤ rem1 st hour_input d := rem1_nonneg st hour_input d
  have hrem2 : 0 ≤ alloc_rem hour_input d DEPARTMENTS (rem1 st hour_input d) :=
    alloc_rem_nonneg hour_input d DEPARTMENTS _ hrem
  have key := route_fold_char hour_input d DEPARTMENTS
      ({ st with
          depts := updDept st.depts d
            (fun s => { s with patients := s.patients - spec_actual st hour_input d }) })
      (rem1 st hour_input d) hrem
  simp only [rem1, out_give, spec_actual] at key hrem2 ⊢
  simp only [depart_step]
  rw [key]
  refine Prod.ext ?_ ?_
  · refine GameState.ext rfl ?_ rfl
    funext x
    by_cases hxd : x = d
    · subst hxd
      simp [updDept]
    · simp [updDept, hxd]
  · funext x
    by_cases hpos :
        0 < alloc_rem hour_input d DEPARTMENTS
          (min (clamp_non_negative (dictGet hour_input.ready_to_exit d))
              (st.depts d).patients
            - min (clamp_non_negative (dictGet hour_input.destinations (d, Target.out)))
                (min (clamp_non_negative (dictGet hour_input.ready_to_exit d))
                  (st.depts d).patients))
    · by_cases hxd : x = d
      · subst hxd
        simp [hpos]
      · simp [hpos, hxd]
    · have hz : alloc_rem hour_input d DEPARTMENTS
          (min (clamp_non_negative (dictGet hour_input.ready_to_exit d))
              (st.depts d).patients
            - min (clamp_non_negative (dictGet hour_input.destinations (d, Target.out)))
                (min (clamp_non_negative (dictGet hour_input.ready_to_exit d))
                  (st.depts d).patients)) = 0 := by omega
      by_cases hxd : x = d
      · subst hxd
        simp [hpos, hz]
      · simp [hpos, hxd]

lemma spec_routed_eq (state : GameState) (hour_input : HourInput) (d t : Dept) :
    spec_routed state hour_input d t
      = alloc_amount hour_input d DEPARTMENTS (rem1 state hour_input d) t := by
  cases d <;> cases t <;>
    simp [spec_routed, spec_alloc, allocFold, targetsOrder, DEPARTMENTS,
      alloc_amount, dest_give, rem1, out_give]

lemma spec_discharged_eq (state : GameState) (hour_input : HourInput) (d : Dept) :
    spec_discharged state hour_input d
      = out_give state hour_input d
        + alloc_rem hour_input d DEPARTMENTS (rem1 state hour_input d) := by
  cases d <;>
    simp [spec_discharged, spec_alloc, allocFold, targetsOrder, DEPARTMENTS,
      alloc_rem, dest_give, rem1, out_give]

lemma apply_departures_eq_spec (state : GameState) (hour_input : HourInput) :
    apply_departures_and_requests state hour_input
      = spec_departures state hour_input := by
  unfold apply_departures_and_requests
  simp only [DEPARTMENTS, List.foldl_cons, List.foldl_nil]
  rw [depart_step_char, depart_step_char, depart_step_char, depart_step_char]
  simp only [spec_departures, spec_discharged_eq, spec_routed_eq]
  refine Prod.ext ?_ ?_
  · refine GameState.ext rfl ?_ rfl
    funext x
    cases x <;>
      · refine DepartmentState.ext ?_ ?_ ?_ ?_ ?_ ?_ ?_ <;>
          simp [spec_actual, rem1, out_give, DEPARTMENTS] <;>
          omega
  · funext x
    cases x <;> simp [spec_actual, rem1, out_give, DEPARTMENTS]

/-! Closed-form characterizations of `commit` and `transition_pre`, used by
the claim theorems. -/

lemma commit_depts_char (st : GameState) (sol : Solution) (disch : Dept → Int)
    (d : Dept) :
    ((commit st sol disch).depts d).patients
        = (st.depts d).patients + extAdmitTerm sol d + sol.admit_req d
      ∧ ((commit st sol disch).depts d).staff
        = (st.depts d).staff + sol.extra_staff d
      ∧ ((commit st sol disch).depts d).req_waiting_mature
        = (st.depts d).req_waiting_mature - sol.admit_req d
      ∧ ((commit st sol disch).depts d).req_waiting_new
        = (st.depts d).req_waiting_new
      ∧ ((commit st sol disch).depts d).ext_waiting
        = (st.depts d).ext_waiting
          - (if d = Dept.ED then 0 else sol.admit_ext d)
      ∧ ((commit st sol disch).depts d).ed_walkin_waiting
        = (st.depts d).ed_walkin_waiting
          - (if d = Dept.ED then sol.admit_ed_walkin else 0)
      ∧ ((commit st sol disch).depts d).ed_ambulance_waiting
        = (if d = Dept.ED then
            max 0 ((st.depts d).ed_ambulance_waiting - sol.admit_ed_ambulance
              - sol.divert_ed)
          else (st.depts d).ed_ambulance_waiting) := by
  cases d <;>
    simp [commit, DEPARTMENTS, updDept, extAdmitTerm] <;>
    omega

lemma commit_hour_char (st : GameState) (sol : Solution) (disch : Dept → Int) :
    (commit st sol disch).hour = st.hour + 1 := by
  simp [commit]

lemma commit_totals_char (st : GameState) (sol : Solution) (disch : Dept → Int) :
    (commit st sol disch).totals.ed_diversions
        = st.totals.ed_diversions + sol.divert_ed
      ∧ (commit st sol disch).totals.ed_waiting
        = st.totals.ed_waiting
          + (((st.depts Dept.ED).ed_walkin_waiting - sol.admit_ed_walkin)
            + max 0 ((st.depts Dept.ED).ed_ambulance_waiting
                - sol.admit_ed_ambulance - sol.divert_ed)
            + ((st.depts Dept.ED).req_waiting_mature - sol.admit_req Dept.ED))
      ∧ (commit st sol disch).totals.ed_extra_staff
        = st.totals.ed_extra_staff + sol.extra_staff Dept.ED
      ∧ (∀ d, (commit st sol disch).totals.dep_arrivals_waiting d
          = if d = Dept.ED then st.totals.dep_arrivals_waiting d
            else st.totals.dep_arrivals_waiting d
              + ((st.depts d).ext_waiting - sol.admit_ext d))
      ∧ (∀ d, (commit st sol disch).totals.dep_requests_waiting d
          = if d = Dept.ED then st.totals.dep_requests_waiting d
            else st.totals.dep_requests_waiting d
              + (((st.depts d).req_waiting_mature - sol.admit_req d)
                + (st.depts d).req_waiting_new))
      ∧ (∀ d, (commit st sol disch).totals.dep_extra_staff d
          = if d = Dept.ED then st.totals.dep_extra_staff d
            else st.totals.dep_extra_staff d + sol.extra_staff d)
      ∧ (commit st sol disch).totals.throughput_admitted
        = st.totals.throughput_admitted
          + DEPARTMENTS.foldl
              (fun acc d => acc + extAdmitTerm sol d + sol.admit_req d) 0
      ∧ (commit st sol disch).totals.discharged_out
        = st.totals.discharged_out
          + DEPARTMENTS.foldl (fun acc d => acc + disch d) 0 := by
  refine ⟨?_, ?_, ?_, ?_, ?_, ?_, ?_, ?_⟩ <;>
    first
      | (intro d; cases d <;> simp [commit, DEPARTMENTS, updDept] <;> omega)
      | simp [commit, DEPARTMENTS, updDept]
      | (simp [commit, DEPARTMENTS, updDept]; omega)

/-! Invariance of the departure quantities under request aging: they read the
state only through `patients`, which `_roll_request_age` leaves untouched. -/

lemma spec_actual_roll (st : GameState) (hi : HourInput) (d : Dept) :
    spec_actual (roll_request_age st) hi d = spec_actual st hi d := by
  simp [spec_actual, roll_request_age]

lemma spec_alloc_roll (st : GameState) (hi : HourInput) (d : Dept) :
    spec_alloc (roll_request_age st) hi d = spec_alloc st hi d := by
  simp [spec_alloc, spec_actual_roll]

lemma spec_routed_roll (st : GameState) (hi : HourInput) (d t : Dept) :
    spec_routed (roll_request_age st) hi d t = spec_routed st hi d t := by
  simp [spec_routed, spec_alloc_roll]

lemma spec_discharged_roll (st : GameState) (hi : HourInput) (d : Dept) :
    spec_discharged (roll_request_age st) hi d = spec_discharged st hi d := by
  simp [spec_discharged, spec_alloc_roll]

lemma transition_char (st : GameState) (hi : HourInput) (d : Dept) :
    ((transition_pre st hi).1.depts d).patients
        = (st.depts d).patients - spec_actual st hi d
      ∧ ((transition_pre st hi).1.depts d).staff
        = clamp_non_negative ((st.depts d).staff + dictGet hi.staff_delta d)
      ∧ ((transition_pre st hi).1.depts d).req_waiting_mature
        = (st.depts d).req_waiting_mature + (st.depts d).req_waiting_new
      ∧ ((transition_pre st hi).1.depts d).req_waiting_new
        = sum_routed st hi d
      ∧ ((transition_pre st hi).1.depts d).ext_waiting
        = (st.depts d).ext_waiting
          + (if d = Dept.ED then 0
            else clamp_non_negative (dictGet hi.external_arrivals d))
      ∧ ((transition_pre st hi).1.depts d).ed_walkin_waiting
        = (st.depts d).ed_walkin_waiting
          + (if d = Dept.ED then clamp_non_negative hi.ed_walkin_arrivals else 0)
      ∧ ((transition_pre st hi).1.depts d).ed_ambulance_waiting
        = (st.depts d).ed_ambulance_waiting
          + (if d = Dept.ED then clamp_non_negative hi.ed_ambulance_arrivals else 0)
      ∧ (transition_pre st hi).1.hour = st.hour
      ∧ (transition_pre st hi).1.totals = st.totals
      ∧ (transition_pre st hi).2 d = spec_discharged st hi d := by
  simp only [transition_pre]
  rw [apply_departures_eq_spec]
  simp only [spec_departures, spec_actual_roll, spec_routed_roll,
    spec_discharged_roll, sum_routed]
  cases d <;>
    simp [apply_arrivals_and_staff, roll_request_age]

lemma alloc_amount_nonneg (hour_input : HourInput) (d : Dept) :
    ∀ (ts : List Dept) (r : Int) (x : Dept), 0 ≤ r →
      0 ≤ alloc_amount hour_input d ts r x := by
  intro ts
  induction ts with
  | nil => intro r x _; simp [alloc_amount]
  | cons t ts ih =>
    intro r x hr
    by_cases htd : t = d
    · simpa [alloc_amount, htd] using ih r x hr
    · have h1 : 0 ≤ dest_give hour_input d t r := by
        unfold dest_give clamp_non_negative
        omega
      have h2 : dest_give hour_input d t r ≤ r := by
        unfold dest_give clamp_non_negative
        omega
      by_cases hxt : x = t
      · subst hxt
        have h3 := ih (r - dest_give hour_input d x r) x (by omega)
        simp [alloc_amount, htd]
        omega
      · have h3 := ih (r - dest_give hour_input d t r) x (by omega)
        simp [alloc_amount, htd, hxt]
        omega

lemma spec_routed_nonneg (state : GameState) (hour_input : HourInput)
    (d t : Dept) : 0 ≤ spec_routed state hour_input d t := by
  rw [spec_routed_eq]
  exact alloc_amount_nonneg hour_input d DEPARTMENTS _ t
    (rem1_nonneg state hour_input d)

lemma sum_routed_nonneg (state : GameState) (hour_input : HourInput)
    (t : Dept) : 0 ≤ sum_routed state hour_input t := by
  have h := fun d => spec_routed_nonneg state hour_input d t
  simp only [sum_routed, DEPARTMENTS, List.foldl_cons, List.foldl_nil]
  have h1 := h Dept.ED
  have h2 := h Dept.SD
  have h3 := h Dept.CC
  have h4 := h Dept.SU
  omega

/-- Claim C1, evaluated at its failing input: a failed solve still leaves the
pre-solve state-transition mutations visible to the caller (here the walk-in
arrival joined the queue), so the transition-plus-optimization step is not
atomic. -/
theorem C1_partial_mutation_on_failed_solve :
    (optimize_hour state0 hour_input_C1 solver_fail).2 = false
      ∧ ((optimize_hour state0 hour_input_C1 solver_fail).1.depts
          Dept.ED).ed_walkin_waiting = 1
      ∧ (state0.depts Dept.ED).ed_walkin_waiting = 0
      ∧ (optimize_hour state0 hour_input_C1 solver_fail).1 ≠ state0 := by
  refine ⟨by decide, by decide, by decide, ?_⟩
  intro h
  have h2 := congrArg (fun s => (s.depts Dept.ED).ed_walkin_waiting) h
  revert h2
  decide

/-- Claim C2: after a successful call (the solver returned values satisfying
the model's constraints), every department's committed `patients` respects
room capacity and the post-commit staffing level. -/
theorem C2_capacity_staffing_invariant (st : GameState) (hi : HourInput)
    (solve : GameState → SolveResult) (sol : Solution)
    (hsolve : solve (transition_pre st hi).1 = SolveResult.optimal sol)
    (hfeas : Feasible (transition_pre st hi).1 sol) (d : Dept) :
    ((optimize_hour st hi solve).1.depts d).patients ≤ TOTAL_ROOMS d
      ∧ ((optimize_hour st hi solve).1.depts d).patients
        ≤ ((optimize_hour st hi solve).1.depts d).staff := by
  have hopt : (optimize_hour st hi solve).1
      = commit (transition_pre st hi).1 sol (transition_pre st hi).2 := by
    simp [optimize_hour, hsolve]
  rw [hopt]
  obtain ⟨hp, hs, -⟩ :=
    commit_depts_char (transition_pre st hi).1 sol (transition_pre st hi).2 d
  obtain ⟨-, -, -, -, -, -, -, -, -, -, -, -, -, h14, h15⟩ := hfeas
  have hc := h14 d
  have hst := h15 d
  constructor
  · omega
  · omega

theorem C2_witness :
    ((optimize_hour state0 idle_input solver_zero).1.depts Dept.ED).patients
        ≤ TOTAL_ROOMS Dept.ED
      ∧ ((optimize_hour state0 idle_input solver_zero).1.depts Dept.ED).patients
        ≤ ((optimize_hour state0 idle_input solver_zero).1.depts Dept.ED).staff :=
  C2_capacity_staffing_invariant state0 idle_input solver_zero zero_solution
    rfl (by decide) Dept.ED

/-- Claim C3: requests routed during an hour's call land in `req_waiting_new`
after the aging step, so the mature queue the admission bound reads holds
exactly the pre-call mature plus pre-call new requests; a feasible solution
can never admit this hour's new requests; the new requests survive the commit
untouched and are merged into the mature queue by the aging step at the start
of the next call — exactly one hour after creation. -/
theorem C3_request_aging_one_hour (st : GameState) (hi : HourInput)
    (sol : Solution) (hfeas : Feasible (transition_pre st hi).1 sol) (d : Dept) :
    ((transition_pre st hi).1.depts d).req_waiting_mature
        = (st.depts d).req_waiting_mature + (st.depts d).req_waiting_new
      ∧ sol.admit_req d
        ≤ (st.depts d).req_waiting_mature + (st.depts d).req_waiting_new
      ∧ ((commit (transition_pre st hi).1 sol
            (transition_pre st hi).2).depts d).req_waiting_new
        = ((transition_pre st hi).1.depts d).req_waiting_new
      ∧ ((roll_request_age (commit (transition_pre st hi).1 sol
            (transition_pre st hi).2)).depts d).req_waiting_mature
        = ((commit (transition_pre st hi).1 sol
            (transition_pre st hi).2).depts d).req_waiting_mature
          + ((transition_pre st hi).1.depts d).req_waiting_new := by
  obtain ⟨-, -, hm, hn, -⟩ := transition_char st hi d
  obtain ⟨-, -, -, hcn, -⟩ :=
    commit_depts_char (transition_pre st hi).1 sol (transition_pre st hi).2 d
  obtain ⟨-, -, -, -, -, -, -, -, h9, -⟩ := hfeas
  have hb := h9 d
  refine ⟨hm, by omega, hcn, ?_⟩
  simp [roll_request_age, hcn]

theorem C3_witness :
    ((transition_pre state0 idle_input).1.depts Dept.SD).req_waiting_mature
        = (state0.depts Dept.SD).req_waiting_mature
          + (state0.depts Dept.SD).req_waiting_new
      ∧ zero_solution.admit_req Dept.SD
        ≤ (state0.depts Dept.SD).req_waiting_mature
          + (state0.depts Dept.SD).req_waiting_new
      ∧ ((commit (transition_pre state0 idle_input).1 zero_solution
            (transition_pre state0 idle_input).2).depts Dept.SD).req_waiting_new
        = ((transition_pre state0 idle_input).1.depts Dept.SD).req_waiting_new
      ∧ ((roll_request_age (commit (transition_pre state0 idle_input).1
            zero_solution
            (transition_pre state0 idle_input).2)).depts
              Dept.SD).req_waiting_mature
        = ((commit (transition_pre state0 idle_input).1 zero_solution
            (transition_pre state0 idle_input).2).depts
              Dept.SD).req_waiting_mature
          + ((transition_pre state0 idle_input).1.depts
              Dept.SD).req_waiting_new :=
  C3_request_aging_one_hour state0 idle_input zero_solution (by decide) Dept.SD

/-- Claim C4: the departure step is exactly the spec's description — remove
`min(clamped ready-to-exit, patients)` patients per department, consume the
destination map discharge-first then each other department in fixed order
with clipping, route non-discharge counts into the targets' `req_waiting_new`,
and count the unallocated remainder as discharged. -/
theorem C4_departure_routing_refines_spec (state : GameState)
    (hour_input : HourInput) :
    apply_departures_and_requests state hour_input
      = spec_departures state hour_input :=
  apply_departures_eq_spec state hour_input

lemma alloc_conservation (hour_input : HourInput) (d : Dept) (r : Int) :
    DEPARTMENTS.foldl
        (fun acc t => acc + alloc_amount hour_input d DEPARTMENTS r t) 0
      + alloc_rem hour_input d DEPARTMENTS r = r := by
  cases d <;>
    simp [DEPARTMENTS, alloc_amount, alloc_rem] <;>
    omega

/-- Claim C9: departures are conserved — for every department, the discharged
count plus everything routed into other departments' `req_waiting_new` equals
the actual departures, which is exactly what was subtracted from `patients`. -/
theorem C9_departure_conservation (state : GameState) (hour_input : HourInput)
    (d : Dept) :
    (apply_departures_and_requests state hour_input).2 d
          + sum_routed_from state hour_input d
        = spec_actual state hour_input d
      ∧ ((apply_departures_and_requests state hour_input).1.depts d).patients
        = (state.depts d).patients - spec_actual state hour_input d := by
  rw [apply_departures_eq_spec]
  constructor
  · have hcons :=
      alloc_conservation hour_input d (rem1 state hour_input d)
    have hout : spec_discharged state hour_input d
        = out_give state hour_input d
          + alloc_rem hour_input d DEPARTMENTS (rem1 state hour_input d) :=
      spec_discharged_eq state hour_input d
    have hsum : sum_routed_from state hour_input d
        = DEPARTMENTS.foldl
            (fun acc t =>
              acc + alloc_amount hour_input d DEPARTMENTS
                (rem1 state hour_input d) t) 0 := by
      simp [sum_routed_from, DEPARTMENTS, spec_routed_eq]
    have hrem : rem1 state hour_input d
        = spec_actual state hour_input d - out_give state hour_input d := rfl
    simp only [spec_departures]
    omega
  · simp [spec_departures]

lemma transition_wf (st : GameState) (hi : HourInput) (hwf : WellFormed st) :
    WellFormed (transition_pre st hi).1 := by
  intro d
  obtain ⟨hp, hs, hm, hn, he, hw, ha, -, -, -⟩ := transition_char st hi d
  obtain ⟨w1, w2, w3, w4, w5, w6, w7⟩ := hwf d
  have hr := sum_routed_nonneg st hi d
  have hsa : spec_actual st hi d ≤ (st.depts d).patients := by
    unfold spec_actual clamp_non_negative
    omega
  refine ⟨by omega, ?_, ?_, ?_, ?_, by omega, by omega⟩
  · rw [hs]
    unfold clamp_non_negative
    omega
  · rw [he]
    simp only [clamp_non_negative]
    split_ifs <;> omega
  · rw [hw]
    simp only [clamp_non_negative]
    split_ifs <;> omega
  · rw [ha]
    simp only [clamp_non_negative]
    split_ifs <;> omega

lemma commit_wf (st1 : GameState) (sol : Solution) (disch : Dept → Int)
    (hwf1 : WellFormed st1) (hfeas : Feasible st1 sol) :
    WellFormed (commit st1 sol disch) := by
  obtain ⟨h1, h2, h3, h4, h5, h6, h7, h8, h9, h10, h11, h12, h13, h14, h15⟩ :=
    hfeas
  intro d
  obtain ⟨cp, cs, cm, cn, ce, cw, ca⟩ := commit_depts_char st1 sol disch d
  obtain ⟨w1, w2, w3, w4, w5, w6, w7⟩ := hwf1 d
  have ha1 := h1 d
  have ha4 := h4 d
  have ha5 := h5 d
  have ha9 := h9 d
  cases d
  · simp only [extAdmitTerm, reduceCtorEq, if_false, if_true, reduceIte]
      at cp ce cw ca
    refine ⟨by omega, by omega, by omega, by omega, by omega, by omega, by omega⟩
  · have he := h8 Dept.SD (by decide)
    simp only [extAdmitTerm, reduceCtorEq, if_false, if_true, reduceIte]
      at cp ce cw ca
    refine ⟨by omega, by omega, by omega, by omega, by omega, by omega, by omega⟩
  · have he := h8 Dept.CC (by decide)
    simp only [extAdmitTerm, reduceCtorEq, if_false, if_true, reduceIte]
      at cp ce cw ca
    refine ⟨by omega, by omega, by omega, by omega, by omega, by omega, by omega⟩
  · have he := h8 Dept.SU (by decide)
    simp only [extAdmitTerm, reduceCtorEq, if_false, if_true, reduceIte]
      at cp ce cw ca
    refine ⟨by omega, by omega, by omega, by omega, by omega, by omega, by omega⟩

lemma commit_costs_monotone (st1 : GameState) (sol : Solution)
    (disch : Dept → Int) (hwf1 : WellFormed st1) (hfeas : Feasible st1 sol) :
    st1.totals.financial_cost ≤ (commit st1 sol disch).totals.financial_cost
      ∧ st1.totals.quality_penalty
        ≤ (commit st1 sol disch).totals.quality_penalty := by
  obtain ⟨h1, h2, h3, h4, h5, h6, h7, h8, h9, h10, h11, h12, h13, h14, h15⟩ :=
    hfeas
  obtain ⟨t1, t2, t3, t4, t5, t6, t7, t8⟩ := commit_totals_char st1 sol disch
  have hwSD := hwf1 Dept.SD
  have hwCC := hwf1 Dept.CC
  have hwSU := hwf1 Dept.SU
  have heSD := h8 Dept.SD (by decide)
  have heCC := h8 Dept.CC (by decide)
  have heSU := h8 Dept.SU (by decide)
  have hrED := h9 Dept.ED
  have hrSD := h9 Dept.SD
  have hrCC := h9 Dept.CC
  have hrSU := h9 Dept.SU
  have hxED := h5 Dept.ED
  have hxSD := h5 Dept.SD
  have hxCC := h5 Dept.CC
  have hxSU := h5 Dept.SU
  constructor
  · simp only [Totals.financial_cost, List.foldl_cons, List.foldl_nil,
      FINANCIAL_ED_diversion, FINANCIAL_ED_waiting, FINANCIAL_extra_staff,
      FINANCIAL_arrivals_waiting, t1, t2, t3]
    rw [t4 Dept.SD, t4 Dept.CC, t4 Dept.SU, t6 Dept.SD, t6 Dept.CC, t6 Dept.SU]
    simp only [reduceCtorEq, if_false]
    obtain ⟨-, -, e2, -, -, -, -⟩ := hwSD
    obtain ⟨-, -, e3, -, -, -, -⟩ := hwCC
    obtain ⟨-, -, e4, -, -, -, -⟩ := hwSU
    omega
  · simp only [Totals.quality_penalty, List.foldl_cons, List.foldl_nil,
      QUALITY_ED_diversion, QUALITY_ED_waiting, QUALITY_extra_staff,
      QUALITY_arrivals_waiting, QUALITY_requests_waiting, t1, t2, t3]
    rw [t4 Dept.SD, t4 Dept.CC, t4 Dept.SU, t5 Dept.SD, t5 Dept.CC, t5 Dept.SU,
      t6 Dept.SD, t6 Dept.CC, t6 Dept.SU]
    simp only [reduceCtorEq, if_false]
    obtain ⟨-, -, e2, -, -, -, f2⟩ := hwSD
    obtain ⟨-, -, e3, -, -, -, f3⟩ := hwCC
    obtain ⟨-, -, e4, -, -, -, f4⟩ := hwSU
    omega

/-- Claim C7: across successful calls the cumulative `financial_cost` and
`quality_penalty` never decrease — every `Totals` counter accumulates a
non-negative increment and the unit costs are non-negative constants — and
well-formedness is preserved, so the argument carries across any sequence of
successful calls. -/
theorem C7_costs_nondecreasing (st : GameState) (hi : HourInput)
    (solve : GameState → SolveResult) (sol : Solution)
    (hsolve : solve (transition_pre st hi).1 = SolveResult.optimal sol)
    (hfeas : Feasible (transition_pre st hi).1 sol)
    (hwf : WellFormed st) :
    st.totals.financial_cost
        ≤ (optimize_hour st hi solve).1.totals.financial_cost
      ∧ st.totals.quality_penalty
        ≤ (optimize_hour st hi solve).1.totals.quality_penalty
      ∧ WellFormed (optimize_hour st hi solve).1 := by
  have hopt : (optimize_hour st hi solve).1
      = commit (transition_pre st hi).1 sol (transition_pre st hi).2 := by
    simp [optimize_hour, hsolve]
  rw [hopt]
  have hwf1 : WellFormed (transition_pre st hi).1 := transition_wf st hi hwf
  have htot : (transition_pre st hi).1.totals = st.totals :=
    (transition_char st hi Dept.ED).2.2.2.2.2.2.2.2.1
  obtain ⟨hf, hq⟩ :=
    commit_costs_monotone (transition_pre st hi).1 sol (transition_pre st hi).2
      hwf1 hfeas
  rw [htot] at hf hq
  exact ⟨hf, hq, commit_wf _ sol _ hwf1 hfeas⟩

theorem C7_witness :
    state0.totals.financial_cost
        ≤ (optimize_hour state0 idle_input solver_zero).1.totals.financial_cost
      ∧ state0.totals.quality_penalty
        ≤ (optimize_hour state0 idle_input solver_zero).1.totals.quality_penalty
      ∧ WellFormed (optimize_hour state0 idle_input solver_zero).1 :=
  C7_costs_nondecreasing state0 idle_input solver_zero zero_solution rfl
    (by decide) (by decide)

/-- Claim C8: the diversion decision never touches the walk-in queue — the
committed `ed_walkin_waiting` is exactly the pre-call queue plus clamped
walk-in arrivals minus admitted walk-ins, independent of `divert_ed`; the
diversion (with the ambulance admissions) only decrements
`ed_ambulance_waiting`; and the solved values satisfy the joint split
constraint. -/
theorem C8_diversion_only_ambulance (st : GameState) (hi : HourInput)
    (solve : GameState → SolveResult) (sol : Solution)
    (hsolve : solve (transition_pre st hi).1 = SolveResult.optimal sol)
    (hfeas : Feasible (transition_pre st hi).1 sol) :
    ((optimize_hour st hi solve).1.depts Dept.ED).ed_walkin_waiting
        = (st.depts Dept.ED).ed_walkin_waiting
          + clamp_non_negative hi.ed_walkin_arrivals - sol.admit_ed_walkin
      ∧ ((optimize_hour st hi solve).1.depts Dept.ED).ed_ambulance_waiting
        = max 0 ((st.depts Dept.ED).ed_ambulance_waiting
            + clamp_non_negative hi.ed_ambulance_arrivals
            - sol.admit_ed_ambulance - sol.divert_ed)
      ∧ sol.admit_ed_ambulance + sol.divert_ed
        ≤ (st.depts Dept.ED).ed_ambulance_waiting
          + clamp_non_negative hi.ed_ambulance_arrivals := by
  have hopt : (optimize_hour st hi solve).1
      = commit (transition_pre st hi).1 sol (transition_pre st hi).2 := by
    simp [optimize_hour, hsolve]
  rw [hopt]
  obtain ⟨-, -, -, -, -, hw, ha, -, -, -⟩ := transition_char st hi Dept.ED
  obtain ⟨-, -, -, -, -, cw, ca⟩ :=
    commit_depts_char (transition_pre st hi).1 sol (transition_pre st hi).2
      Dept.ED
  simp only [reduceIte] at hw ha cw ca
  obtain ⟨-, -, -, -, -, -, -, -, -, -, -, -, h13, -, -⟩ := hfeas
  refine ⟨by omega, ?_, by omega⟩
  rw [ca, ha]

theorem C8_witness :
    ((optimize_hour state0 idle_input solver_zero).1.depts
          Dept.ED).ed_walkin_waiting
        = (state0.depts Dept.ED).ed_walkin_waiting
          + clamp_non_negative idle_input.ed_walkin_arrivals
          - zero_solution.admit_ed_walkin
      ∧ ((optimize_hour state0 idle_input solver_zero).1.depts
          Dept.ED).ed_ambulance_waiting
        = max 0 ((state0.depts Dept.ED).ed_ambulance_waiting
            + clamp_non_negative idle_input.ed_ambulance_arrivals
            - zero_solution.admit_ed_ambulance - zero_solution.divert_ed)
      ∧ zero_solution.admit_ed_ambulance + zero_solution.divert_ed
        ≤ (state0.depts Dept.ED).ed_ambulance_waiting
          + clamp_non_negative idle_input.ed_ambulance_arrivals :=
  C8_diversion_only_ambulance state0 idle_input solver_zero zero_solution rfl
    (by decide)

lemma objective_C5 (sol : Solution) (hfeas : Feasible st_C5 sol) :
    objective st_C5 1 300 sol
      = 37700 - 4070 * sol.admit_ext Dept.SD
        + 45 * (sol.extra_staff Dept.ED + sol.extra_staff Dept.SD
          + sol.extra_staff Dept.CC + sol.extra_staff Dept.SU) := by
  obtain ⟨h1, h2, h3, h4, h5, h6, h7, h8, h9, h10, h11, h12, h13, h14, h15⟩ :=
    hfeas
  have z_div : sol.divert_ed = 0 := by
    have hb := h12
    rw [show (st_C5.depts Dept.ED).ed_ambulance_waiting = 0 from rfl] at hb
    omega
  have z_w : sol.admit_ed_walkin = 0 := by
    have hb := h10
    rw [show (st_C5.depts Dept.ED).ed_walkin_waiting = 0 from rfl] at hb
    omega
  have z_a : sol.admit_ed_ambulance = 0 := by
    have hb := h11
    rw [show (st_C5.depts Dept.ED).ed_ambulance_waiting = 0 from rfl] at hb
    omega
  have z_rED : sol.admit_req Dept.ED = 0 := by
    have hb := h9 Dept.ED
    have hc := h4 Dept.ED
    rw [show (st_C5.depts Dept.ED).req_waiting_mature = 0 from rfl] at hb
    omega
  have z_rSD : sol.admit_req Dept.SD = 0 := by
    have hb := h9 Dept.SD
    have hc := h4 Dept.SD
    rw [show (st_C5.depts Dept.SD).req_waiting_mature = 0 from rfl] at hb
    omega
  have z_rCC : sol.admit_req Dept.CC = 0 := by
    have hb := h9 Dept.CC
    have hc := h4 Dept.CC
    rw [show (st_C5.depts Dept.CC).req_waiting_mature = 0 from rfl] at hb
    omega
  have z_rSU : sol.admit_req Dept.SU = 0 := by
    have hb := h9 Dept.SU
    have hc := h4 Dept.SU
    rw [show (st_C5.depts Dept.SU).req_waiting_mature = 0 from rfl] at hb
    omega
  have z_eED : sol.admit_ext Dept.ED = 0 := h7
  have z_eCC : sol.admit_ext Dept.CC = 0 := by
    have hb := h8 Dept.CC (by decide)
    have hc := h1 Dept.CC
    rw [show (st_C5.depts Dept.CC).ext_waiting = 0 from rfl] at hb
    omega
  have z_eSU : sol.admit_ext Dept.SU = 0 := by
    have hb := h8 Dept.SU (by decide)
    have hc := h1 Dept.SU
    rw [show (st_C5.depts Dept.SU).ext_waiting = 0 from rfl] at hb
    omega
  simp only [objective, DEPARTMENTS, List.foldl_cons, List.foldl_nil,
    FINANCIAL_ED_diversion, FINANCIAL_ED_waiting, FINANCIAL_extra_staff,
    FINANCIAL_arrivals_waiting, QUALITY_ED_diversion, QUALITY_ED_waiting,
    QUALITY_extra_staff, QUALITY_arrivals_waiting, QUALITY_requests_waiting,
    z_div, z_w, z_a, z_rED, z_rSD, z_rCC, z_rSU, z_eED, z_eCC, z_eSU, st_C5]
  omega

lemma sol_C5_star_feasible : Feasible st_C5 sol_C5_star := by decide

lemma sol_C5_star_objective : objective st_C5 1 300 sol_C5_star = -2640 := by
  decide

lemma sol_C5_star_optimal : IsOptimal st_C5 1 300 sol_C5_star := by
  refine ⟨sol_C5_star_feasible, ?_⟩
  intro s hs
  have hobj := objective_C5 s hs
  obtain ⟨h1, h2, h3, h4, h5, h6, h7, h8, h9, h10, h11, h12, h13, h14, h15⟩ :=
    hs
  have ha : s.admit_ext Dept.SD ≤ 10 := by
    have hb := h8 Dept.SD (by decide)
    rw [show (st_C5.depts Dept.SD).ext_waiting = 10 from rfl] at hb
    omega
  have hstaff := h15 Dept.SD
  rw [show (st_C5.depts Dept.SD).patients = 20 from rfl,
    show (st_C5.depts Dept.SD).staff = 22 from rfl,
    show extAdmitTerm s Dept.SD = s.admit_ext Dept.SD from rfl] at hstaff
  have hr := h4 Dept.SD
  have he1 := h5 Dept.ED
  have he2 := h5 Dept.SD
  have he3 := h5 Dept.CC
  have he4 := h5 Dept.SU
  rw [hobj, sol_C5_star_objective]
  omega

/-- Claim C5 as stated is false: no optimal solution of the Scenario C
integer program admits only 2 Step-Down arrivals — since `extra_staff` is an
unbounded decision variable costing 40 + 5 per unit against a per-patient
saving of 3750 + 20 waiting cost plus 300 flow reward, any solution with
`admit_ext[SD] = 2` is strictly beaten by admitting all 10 with 8 extra
staff. -/
theorem C5_counterexample :
    ¬ ∃ sol, IsOptimal st_C5 1 300 sol ∧ sol.admit_ext Dept.SD = 2 := by
  rintro ⟨sol, ⟨hfeas, hopt⟩, ha⟩
  have hle := hopt sol_C5_star sol_C5_star_feasible
  have h1 := objective_C5 sol hfeas
  rw [h1, sol_C5_star_objective, ha] at hle
  obtain ⟨-, -, -, -, h5, -⟩ := hfeas
  have he1 := h5 Dept.ED
  have he2 := h5 Dept.SD
  have he3 := h5 Dept.CC
  have he4 := h5 Dept.SU
  omega

/-- Claim C5, amended: in Scenario C every optimal solution of the hour's
integer program under the default weights admits all 10 Step-Down arrivals
and calls exactly 8 extra staff; nothing stays queued, because the staffing
constraint is soft — extra staff at 40 + 5 per unit is far cheaper than the
3750 + 20 waiting cost plus the 300 flow reward per admitted patient. -/
theorem C5_staff_bound_corrected (sol : Solution)
    (hopt : IsOptimal st_C5 1 300 sol) :
    sol.admit_ext Dept.SD = 10 ∧ sol.extra_staff Dept.SD = 8 := by
  obtain ⟨hfeas, hmin⟩ := hopt
  have hle := hmin sol_C5_star sol_C5_star_feasible
  have h1 := objective_C5 sol hfeas
  rw [h1, sol_C5_star_objective] at hle
  obtain ⟨h1', h2, h3, h4, h5, h6, h7, h8, h9, h10, h11, h12, h13, h14, h15⟩ :=
    hfeas
  have ha : sol.admit_ext Dept.SD ≤ 10 := by
    have hb := h8 Dept.SD (by decide)
    rw [show (st_C5.depts Dept.SD).ext_waiting = 10 from rfl] at hb
    omega
  have hstaff := h15 Dept.SD
  rw [show (st_C5.depts Dept.SD).patients = 20 from rfl,
    show (st_C5.depts Dept.SD).staff = 22 from rfl,
    show extAdmitTerm sol Dept.SD = sol.admit_ext Dept.SD from rfl] at hstaff
  have hr := h4 Dept.SD
  have he1 := h5 Dept.ED
  have he2 := h5 Dept.SD
  have he3 := h5 Dept.CC
  have he4 := h5 Dept.SU
  omega

theorem C5_witness :
    sol_C5_star.admit_ext Dept.SD = 10 ∧ sol_C5_star.extra_staff Dept.SD = 8 :=
  C5_staff_bound_corrected sol_C5_star sol_C5_star_optimal

lemma collect_errors_eq (f : RawForm) :
    collect_errors f
      = err_contrib f Dept.ED ++ err_contrib f Dept.SD
        ++ err_contrib f Dept.CC ++ err_contrib f Dept.SU := by
  have hstep : (fun (es : List String) d =>
      if 0 < f.ready d then
        if split_sum f d ≠ f.ready d then es ++ [split_error_msg] else es
      else es) = fun es d => es ++ err_contrib f d := by
    funext es d
    simp only [err_contrib]
    split_ifs <;> simp
  simp only [collect_errors, hstep, DEPARTMENTS, List.foldl_cons,
    List.foldl_nil]
  simp [List.append_assoc]

/-- Claim C6 as stated is false of the core: `optimize_hour` accepts an
`HourInput` whose destination total (3) differs from its ready-to-exit count
(5), raises no validation error (the call succeeds), clips/spills the split
(all 5 counted discharged) and mutates the state (Step-Down loses 5
patients). -/
theorem C6_counterexample :
    (optimize_hour state0 hour_input_C6 solver_zero).2 = true
      ∧ ((optimize_hour state0 hour_input_C6 solver_zero).1.depts
          Dept.SD).patients = 17
      ∧ (state0.depts Dept.SD).patients = 22
      ∧ (optimize_hour state0 hour_input_C6 solver_zero).1.totals.discharged_out
        = 5 := by
  refine ⟨by decide, by decide, by decide, by decide⟩

/-- Claim C6, amended: the destination-split mismatch is a caller-visible
validation error of the UI input collector, not of the core —
`_collect_hour_input` reports errors and produces no `HourInput` (so
`optimize_hour` is never reached from an unvalidated form), while the core
itself accepts any destinations map, clipping and spilling. -/
theorem C6_ui_validation_corrected (f : RawForm) (d : Dept)
    (h1 : 0 < f.ready d) (h2 : split_sum f d ≠ f.ready d) :
    (collect_hour_input f).1 = none ∧ (collect_hour_input f).2 ≠ [] := by
  have hc : err_contrib f d = [split_error_msg] := by
    simp [err_contrib, h1, h2]
  have hne : collect_errors f ≠ [] := by
    rw [collect_errors_eq]
    intro hnil
    simp only [List.append_eq_nil] at hnil
    cases d <;> simp_all
  constructor
  · simp [collect_hour_input, hne]
  · simp [collect_hour_input, hne]

theorem C6_witness :
    (collect_hour_input raw_C6).1 = none
      ∧ (collect_hour_input raw_C6).2 ≠ [] :=
  C6_ui_validation_corrected raw_C6 Dept.SD (by decide) (by decide)

/-! Claim C10: keys absent from the `HourInput` dictionaries behave exactly
like an explicit zero entry, because every read goes through
`dict.get(key, 0)`. -/

lemma dictGet_not_hasKey {α : Type} [DecidableEq α] :
    ∀ (m : List (α × Int)) (k : α), ¬ hasKey m k → dictGet m k = 0 := by
  intro m
  induction m with
  | nil => intro k _; rfl
  | cons p rest ih =>
    intro k hk
    obtain ⟨a, b⟩ := p
    have h1 : ¬ a = k := fun h => hk ⟨(a, b), List.mem_cons_self _ _, h⟩
    have h2 : ¬ hasKey rest k := by
      rintro ⟨q, hq, he⟩
      exact hk ⟨q, List.mem_cons_of_mem _ hq, he⟩
    simp [dictGet, h1]
    exact ih k h2

lemma dictGet_cons_zero {α : Type} [DecidableEq α] (m : List (α × Int))
    (d : α) (h : ¬ hasKey m d) (k : α) :
    dictGet ((d, 0) :: m) k = dictGet m k := by
  by_cases hk : d = k
  · subst hk
    simp [dictGet, dictGet_not_hasKey m d h]
  · simp [dictGet, hk]

lemma route_step_ext (hi hi' : HourInput)
    (hd : ∀ x, dictGet hi.destinations x = dictGet hi'.destinations x) :
    route_step hi = route_step hi' := by
  funext d p t
  simp only [route_step, hd]

lemma depart_step_ext (hi hi' : HourInput)
    (hr : ∀ x, dictGet hi.ready_to_exit x = dictGet hi'.ready_to_exit x)
    (hd : ∀ x, dictGet hi.destinations x = dictGet hi'.destinations x) :
    depart_step hi = depart_step hi' := by
  funext acc d
  simp only [depart_step, route_fold, route_step_ext hi hi' hd, hr, hd]

lemma transition_pre_ext (st : GameState) (hi hi' : HourInput)
    (hw : hi.ed_walkin_arrivals = hi'.ed_walkin_arrivals)
    (ha : hi.ed_ambulance_arrivals = hi'.ed_ambulance_arrivals)
    (he : ∀ x, dictGet hi.external_arrivals x = dictGet hi'.external_arrivals x)
    (hs : ∀ x, dictGet hi.staff_delta x = dictGet hi'.staff_delta x)
    (hr : ∀ x, dictGet hi.ready_to_exit x = dictGet hi'.ready_to_exit x)
    (hd : ∀ x, dictGet hi.destinations x = dictGet hi'.destinations x) :
    transition_pre st hi = transition_pre st hi' := by
  simp only [transition_pre, apply_departures_and_requests,
    depart_step_ext hi hi' hr hd, apply_arrivals_and_staff, he, hs, hw, ha]

lemma optimize_hour_ext (st : GameState) (solve : GameState → SolveResult)
    (hi hi' : HourInput)
    (hw : hi.ed_walkin_arrivals = hi'.ed_walkin_arrivals)
    (ha : hi.ed_ambulance_arrivals = hi'.ed_ambulance_arrivals)
    (he : ∀ x, dictGet hi.external_arrivals x = dictGet hi'.external_arrivals x)
    (hs : ∀ x, dictGet hi.staff_delta x = dictGet hi'.staff_delta x)
    (hr : ∀ x, dictGet hi.ready_to_exit x = dictGet hi'.ready_to_exit x)
    (hd : ∀ x, dictGet hi.destinations x = dictGet hi'.destinations x) :
    optimize_hour st hi solve = optimize_hour st hi' solve := by
  have h := transition_pre_ext st hi hi' hw ha he hs hr hd
  simp [optimize_hour, h]

/-- Claim C10: a department (or destination key) absent from any of the four
`HourInput` dictionaries behaves exactly as an explicit entry with value 0 —
prepending the zero entry leaves `optimize_hour` unchanged (and the lookup
itself never fails, it totalizes with default 0). -/
theorem C10_missing_keys_are_zero (st : GameState)
    (solve : GameState → SolveResult) (hi : HourInput) (d : Dept)
    (k : Dept × Target)
    (h1 : ¬ hasKey hi.external_arrivals d)
    (h2 : ¬ hasKey hi.staff_delta d)
    (h3 : ¬ hasKey hi.ready_to_exit d)
    (h4 : ¬ hasKey hi.destinations k) :
    optimize_hour st
          { hi with external_arrivals := (d, 0) :: hi.external_arrivals } solve
        = optimize_hour st hi solve
      ∧ optimize_hour st
          { hi with staff_delta := (d, 0) :: hi.staff_delta } solve
        = optimize_hour st hi solve
      ∧ optimize_hour st
          { hi with ready_to_exit := (d, 0) :: hi.ready_to_exit } solve
        = optimize_hour st hi solve
      ∧ optimize_hour st
          { hi with destinations := (k, 0) :: hi.destinations } solve
        = optimize_hour st hi solve := by
  refine ⟨?_, ?_, ?_, ?_⟩
  · exact optimize_hour_ext st solve _ hi rfl rfl
      (dictGet_cons_zero hi.external_arrivals d h1) (fun _ => rfl)
      (fun _ => rfl) (fun _ => rfl)
  · exact optimize_hour_ext st solve _ hi rfl rfl (fun _ => rfl)
      (dictGet_cons_zero hi.staff_delta d h2) (fun _ => rfl) (fun _ => rfl)
  · exact optimize_hour_ext st solve _ hi rfl rfl (fun _ => rfl) (fun _ => rfl)
      (dictGet_cons_zero hi.ready_to_exit d h3) (fun _ => rfl)
  · exact optimize_hour_ext st solve _ hi rfl rfl (fun _ => rfl) (fun _ => rfl)
      (fun _ => rfl) (dictGet_cons_zero hi.destinations k h4)

theorem C10_witness :
    optimize_hour state0
          { idle_input with
              external_arrivals := (Dept.SD, 0) :: idle_input.external_arrivals }
          solver_zero
        = optimize_hour state0 idle_input solver_zero
      ∧ optimize_hour state0
          { idle_input with
              staff_delta := (Dept.SD, 0) :: idle_input.staff_delta }
          solver_zero
        = optimize_hour state0 idle_input solver_zero
      ∧ optimize_hour state0
          { idle_input with
              ready_to_exit := (Dept.SD, 0) :: idle_input.ready_to_exit }
          solver_zero
        = optimize_hour state0 idle_input solver_zero
      ∧ optimize_hour state0
          { idle_input with
              destinations :=
                ((Dept.SD, Target.out), 0) :: idle_input.destinations }
          solver_zero
        = optimize_hour state0 idle_input solver_zero :=
  C10_missing_keys_are_zero state0 solver_zero idle_input Dept.SD
    (Dept.SD, Target.out) (by decide) (by decide) (by decide) (by decide)

end ER
